import Mathlib

/-!
Verification development for the actomyosin-contraction-in-soft-pillar-rings code.

The definitions below are a shallow embedding, over the real numbers, of the
Python sources `models.py`, `work_and_power.py` and `parameter_loader.py`:

* `FullModel` and `DensityModel` embed the two model classes; their rate,
  geometry and stiffness attributes become structure fields, and the derived
  constants `A0` and `tau` (computed once in the Python constructors) become
  functions of the structure.
* Machine floats are modelled as real numbers; Python's float division is
  modelled by real division (total, with `x / 0 = 0`).  Where a claim is about
  a `ZeroDivisionError` being raised, an additional `Option`-valued variant
  (`rhsE`, `velocityE`) makes the failing division explicit.
* Python lists become `List ℝ`; the loops of `__calc_prob_dist` and
  `k_off_fil` become `Finset` products/sums over the same index ranges
  (`range(0, n)` becomes `Finset.range n`, `range(1, Nh + 1)` becomes
  `Finset.Icc 1 Nh`, the inner `range(NB, Nh + 1)` becomes `Finset.Icc NB Nh`).
* The parameter-file loader is embedded over pre-tokenised lines; `sys.exit`
  is modelled by `Option.none`.
-/

/-! ## models.py: the FullModel class -/

structure FullModel where
  x_catch : ℝ
  x_slip : ℝ
  k_off0_catch : ℝ
  k_off0_slip : ℝ
  k_on : ℝ
  k_on_fil : ℝ
  a_per_kBT : ℝ
  Nh : ℕ
  Nmax : ℕ
  h_eta : ℝ
  xi_rho_a2 : ℝ
  rho_max_per_rho : ℝ
  R0 : ℝ
  k_p : ℝ

/-- Derived constant `self.A0 = pi * self.R0**2` set in `FullModel.__init__`. -/
noncomputable def FullModel.A0 (m : FullModel) : ℝ := Real.pi * m.R0 ^ 2

/-- Derived constant `self.tau = 6./5. * pi * self.h_eta / self.k_p` set in
`FullModel.__init__`. -/
noncomputable def FullModel.tau (m : FullModel) : ℝ :=
  6 / 5 * Real.pi * m.h_eta / m.k_p

/-- `FullModel.__k_off(force)`: load dependent off-rate of an individual
myosin head, `k_off0_catch * exp(-a_per_kBT*force*x_catch)
+ k_off0_slip * exp(a_per_kBT*force*x_slip)`. -/
noncomputable def FullModel.k_off (m : FullModel) (force : ℝ) : ℝ :=
  m.k_off0_catch * Real.exp (-m.a_per_kBT * force * m.x_catch) +
    m.k_off0_slip * Real.exp (m.a_per_kBT * force * m.x_slip)

/-- The numerator `nom` accumulated by the loop `for i in range(0, n)` of
`FullModel.__calc_prob_dist`:
`nom = prod_i ((Nh - i) * k_on) / ((i + 1) * __k_off(total_force / (i + 1)))`. -/
noncomputable def FullModel.nom (m : FullModel) (total_force : ℝ) (n : ℕ) : ℝ :=
  ∏ i ∈ Finset.range n,
    ((m.Nh : ℝ) - (i : ℝ)) * m.k_on /
      (((i : ℝ) + 1) * m.k_off (total_force / ((i : ℝ) + 1)))

/-- The denominator `denom` accumulated by the loop `for k in range(1, Nh + 1)`
of `FullModel.__calc_prob_dist` (its inner product over `j in range(0, k)` is
exactly `nom k`). -/
noncomputable def FullModel.denom (m : FullModel) (total_force : ℝ) : ℝ :=
  1 + ∑ k ∈ Finset.Icc 1 m.Nh, m.nom total_force k

/-- The entry `pns[n] = nom / denom` appended by `FullModel.__calc_prob_dist`. -/
noncomputable def FullModel.prob (m : FullModel) (total_force : ℝ) (n : ℕ) : ℝ :=
  m.nom total_force n / m.denom total_force

/-- `FullModel.__calc_prob_dist(total_force)`: the list `pns` of probabilities
that `n` heads are bound, for `n in range(0, Nh + 1)`. -/
noncomputable def FullModel.calc_prob_dist (m : FullModel) (total_force : ℝ) :
    List ℝ :=
  (List.range (m.Nh + 1)).map (m.prob total_force)

/-- The accumulator `T_off_av` of `FullModel.k_off_fil`: for each
`NB_init in range(1, Nh + 1)`, the inner time
`T_off = sum_NB 1/(NB * __k_off(total_force/NB) * pns[NB]) * sum_j pns[j]`
(with `NB in range(1, NB_init + 1)` and `j in range(NB, Nh + 1)`) is weighted
by `pns[NB_init]`.  List indexing `pns[j]` is embedded as `List.getD pns j 0`;
every index used lies below the length of `pns`. -/
noncomputable def FullModel.T_off_av (m : FullModel) (total_force : ℝ) : ℝ :=
  let pns := m.calc_prob_dist total_force
  ∑ NB_init ∈ Finset.Icc 1 m.Nh,
    pns.getD NB_init 0 *
      ∑ NB ∈ Finset.Icc 1 NB_init,
        1 / ((NB : ℝ) * m.k_off (total_force / (NB : ℝ)) * pns.getD NB 0) *
          ∑ j ∈ Finset.Icc NB m.Nh, pns.getD j 0

/-- `FullModel.k_off_fil(total_force)`: returns `1 / T_off_av`. -/
noncomputable def FullModel.k_off_fil (m : FullModel) (total_force : ℝ) : ℝ :=
  1 / m.T_off_av total_force

/-- `FullModel.rhs(t, y)` with `y[0] = force`, `y[1] = N`:
computes `area`, `density_factor`, `force_prime` and `N_prime` and returns
`[force_prime, N_prime]`. -/
noncomputable def FullModel.rhs (m : FullModel) (t : ℝ) (y : List ℝ) : List ℝ :=
  let force := y.getD 0 0
  let N := y.getD 1 0
  let area := Real.pi * (m.R0 - force / m.k_p) ^ 2
  let density_factor := -m.A0 / area * (m.A0 / area - m.rho_max_per_rho)
  let force_prime := -force / m.tau + m.xi_rho_a2 * N * density_factor / m.tau
  let N_prime := m.k_on_fil * ((m.Nmax : ℝ) - N) - m.k_off_fil force * N
  [force_prime, N_prime]

/-- `FullModel.velocity(t, force, N)`: the deflection velocity of the pillar
tip, `(-force/tau + xi_rho_a2*N*density_factor/tau) / k_p`. -/
noncomputable def FullModel.velocity (m : FullModel) (t force N : ℝ) : ℝ :=
  let area := Real.pi * (m.R0 - force / m.k_p) ^ 2
  let density_factor := -m.A0 / area * (m.A0 / area - m.rho_max_per_rho)
  (-force / m.tau + m.xi_rho_a2 * N * density_factor / m.tau) / m.k_p

/-- The dictionary `self.parameter_dict` built in `FullModel.__init__`,
embedded as a partial map from names to values (the integer entries `Nh` and
`Nmax` are cast to ℝ). -/
noncomputable def FullModel.parameter_dict (m : FullModel) (name : String) :
    Option ℝ :=
  if name = "x_catch" then some m.x_catch
  else if name = "x_slip" then some m.x_slip
  else if name = "k_off0_catch" then some m.k_off0_catch
  else if name = "k_off0_slip" then some m.k_off0_slip
  else if name = "k_on" then some m.k_on
  else if name = "k_on_fil" then some m.k_on_fil
  else if name = "a_per_kBT" then some m.a_per_kBT
  else if name = "Nh" then some (m.Nh : ℝ)
  else if name = "Nmax" then some (m.Nmax : ℝ)
  else if name = "h_eta" then some m.h_eta
  else if name = "xi_rho_a2" then some m.xi_rho_a2
  else if name = "rho_max_per_rho" then some m.rho_max_per_rho
  else if name = "R0" then some m.R0
  else if name = "k_p" then some m.k_p
  else none

/-- `FullModel.get_parameter(parameter_name)`: dictionary lookup
`self.parameter_dict[parameter_name]`; a missing key (Python `KeyError`) is
modelled by `none`. -/
noncomputable def FullModel.get_parameter (m : FullModel) (parameter_name : String) :
    Option ℝ :=
  m.parameter_dict parameter_name

/-! ## models.py: the DensityModel class -/

structure DensityModel where
  h_eta : ℝ
  xi_N_rho_a2 : ℝ
  rho_max_per_rho : ℝ
  R0 : ℝ
  k_p : ℝ

/-- Derived constant `self.A0 = pi * self.R0 ** 2` of `DensityModel.__init__`. -/
noncomputable def DensityModel.A0 (m : DensityModel) : ℝ := Real.pi * m.R0 ^ 2

/-- Derived constant `self.tau = 6./5. * pi * self.h_eta / self.k_p` of
`DensityModel.__init__`. -/
noncomputable def DensityModel.tau (m : DensityModel) : ℝ :=
  6 / 5 * Real.pi * m.h_eta / m.k_p

/-- `DensityModel.rhs(t, y)` with `y[0] = force`: returns `[force_prime]`. -/
noncomputable def DensityModel.rhs (m : DensityModel) (t : ℝ) (y : List ℝ) :
    List ℝ :=
  let force := y.getD 0 0
  let area := Real.pi * (m.R0 - force / m.k_p) ^ 2
  let density_factor := -m.A0 / area * (m.A0 / area - m.rho_max_per_rho)
  let force_prime := -force / m.tau + m.xi_N_rho_a2 * density_factor / m.tau
  [force_prime]

/-- `DensityModel.velocity(t, force)`: the deflection velocity of the pillar
tip. -/
noncomputable def DensityModel.velocity (m : DensityModel) (t force : ℝ) : ℝ :=
  let area := Real.pi * (m.R0 - force / m.k_p) ^ 2
  let density_factor := -m.A0 / area * (m.A0 / area - m.rho_max_per_rho)
  (-force / m.tau + m.xi_N_rho_a2 * density_factor / m.tau) / m.k_p

/-- The dictionary `self.parameter_dict` built in `DensityModel.__init__`. -/
noncomputable def DensityModel.parameter_dict (m : DensityModel) (name : String) :
    Option ℝ :=
  if name = "h_eta" then some m.h_eta
  else if name = "xi_N_rho_a2" then some m.xi_N_rho_a2
  else if name = "rho_max_per_rho" then some m.rho_max_per_rho
  else if name = "R0" then some m.R0
  else if name = "k_p" then some m.k_p
  else none

/-- `DensityModel.get_parameter(parameter_name)`: dictionary lookup, a missing
key is `none`. -/
noncomputable def DensityModel.get_parameter (m : DensityModel)
    (parameter_name : String) : Option ℝ :=
  m.parameter_dict parameter_name

/-! ## models.py: Option-valued variants making Python's ZeroDivisionError in
`rhs`/`velocity` explicit.

With a plain-float state (the documented `y (list(float))` interface), the
divisions of `rhs`/`velocity` raise `ZeroDivisionError`, in evaluation order:
`force / self.k_p` inside `area` (raising iff `k_p == 0`), then `A0 / area`
inside `density_factor` (raising iff `area == 0`), then the divisions by
`self.tau` inside `force_prime` (raising iff `tau == 0`, i.e. iff
`h_eta == 0` for a constructed model, since `tau = 6/5*pi*h_eta/k_p`).  The
variants below return `none` in those three cases, in the same order, and
otherwise the value of the corresponding total function.  (The divisions
inside the kinetics of `FullModel.rhs` go through `np.exp`'s numpy floats
and produce inf/nan with a runtime warning instead of raising — see C6 — so
they stay totalised.) -/

/-- `transmitted_power(displacements, velocities, model)`: elementwise
`5. * 2. * k_p * displacements * velocities`. -/
noncomputable def transmitted_power (displacements velocities : List ℝ)
    (k_p : ℝ) : List ℝ :=
  List.zipWith (fun d v => 5 * 2 * k_p * d * v) displacements velocities

/-- `dissipated_power(velocities, model)`: `gamma = 6./5. * pi * h_eta`, then
elementwise `5. * gamma * 4. * velocities ** 2`. -/
noncomputable def dissipated_power (velocities : List ℝ) (h_eta : ℝ) : List ℝ :=
  let gamma := 6 / 5 * Real.pi * h_eta
  velocities.map (fun v => 5 * gamma * 4 * v ^ 2)

/-- `work_elastic(t, displacements, velocities, model)`: starts with
`work = 0` and `time_prev = 0` and for each `(time, power)` in
`zip(t, powers)` adds `(time - time_prev) * power`.  As in the source,
`time_prev` is bound once before the loop and never reassigned inside it. -/
noncomputable def work_elastic (t displacements velocities : List ℝ)
    (k_p : ℝ) : ℝ :=
  let powers := transmitted_power displacements velocities k_p
  let time_prev : ℝ := 0
  (t.zip powers).foldl (fun work tp => work + (tp.1 - time_prev) * tp.2) 0

/-- `work_diss(t, velocities, model)`: same accumulation as `work_elastic`
over the dissipated powers; `time_prev` is again never reassigned. -/
noncomputable def work_diss (t velocities : List ℝ) (h_eta : ℝ) : ℝ :=
  let powers := dissipated_power velocities h_eta
  let time_prev : ℝ := 0
  (t.zip powers).foldl (fun work tp => work + (tp.1 - time_prev) * tp.2) 0

/-- Modelled from the spec: `cumulativeWork(times, powers)`, the time-weighted
left-Riemann sum `work = sum_i (t_i - t_im1) * power_i` in which the previous
time starts at 0 and advances to `t_i` after each step.  This definition
follows the words of the specification and is compared with `work_elastic` /
`work_diss` above, which embed the source. -/
noncomputable def cumulativeWork_spec (times powers : List ℝ) : ℝ :=
  ((times.zip powers).foldl
    (fun s tp => (s.1 + (tp.1 - s.2) * tp.2, tp.1)) ((0 : ℝ), (0 : ℝ))).1

/-! ## parameter_loader.py

A parameter-file line `name = value` is embedded pre-tokenised as a `Line`
carrying its key and its numeric value (the distinction between the `int`
parse used for `N_h`/`N_max` and the `float` parse used otherwise does not
affect which keys are found, which is what the claims are about). -/

structure Line where
  name : String
  value : ℝ

/-- The module-level list `full_model_parameter_names`. -/
def full_model_parameter_names : List String :=
  ["x_catch", "x_slip", "k_off^catch", "k_off^slip", "k_on", "k_on_fil",
   "a/kBT", "N_h", "N_max", "h*eta_am^eff", "xi*rho_a(t=0)^2",
   "rho_a^max/rho_a(t=0)", "R0"]

/-- The module-level list `density_model_parameter_names`. -/
def density_model_parameter_names : List String :=
  ["h*eta_am^eff", "xi*NM*rho_a(t=0)^2", "rho_a^max/rho_a(t=0)", "R0"]

/-- `parameter_names.index(nm)`: the first index of `nm` in the list, `none`
when absent (Python raises `ValueError`, caught by the loader's `except`). -/
def indexOfName (nm : String) : List String → Option ℕ
  | [] => none
  | x :: xs => if x = nm then some 0 else (indexOfName nm xs).map (· + 1)

/-- The body of the loader's `for line in f.readlines()` loop: when the line's
key occurs in `parameter_names` at index `idx`, set `parameters[idx]` to the
line's value and `parameters_found[idx] = 1`; otherwise (Python's caught
`ValueError`) leave the state unchanged. -/
def applyLine (parameter_names : List String) (st : List ℝ × List ℕ)
    (ln : Line) : List ℝ × List ℕ :=
  match indexOfName ln.name parameter_names with
  | some idx => (st.1.set idx ln.value, st.2.set idx 1)
  | none => st

/-- The loader's accumulation and final check for one schema: `parameters` and
`parameters_found` start as zero lists of the schema's length, every file line
is applied in order, and `if 0 in parameters_found` the run is aborted
(`sys.exit(1)`, modelled by `none`); otherwise the populated `parameters`
list is returned. -/
noncomputable def loadWith (parameter_names : List String) (file : List Line) :
    Option (List ℝ) :=
  let st := file.foldl (applyLine parameter_names)
    (List.replicate parameter_names.length (0 : ℝ),
     List.replicate parameter_names.length (0 : ℕ))
  if 0 ∈ st.2 then none else some st.1

/-- `load_parameters(model_type, parameter_file)`: dispatches on the model
type; an unknown model type is also a fatal configuration error
(`sys.exit(1)`, modelled by `none`). -/
noncomputable def load_parameters (model_type : String) (file : List Line) :
    Option (List ℝ) :=
  if model_type = "full model" then loadWith full_model_parameter_names file
  else if model_type = "density model" then
    loadWith density_model_parameter_names file
  else none

/-! ## Concrete instances used in counterexamples and witnesses -/

/-- A concrete `FullModel`: `x_catch = 0`, `x_slip = 0`, `k_off0_catch = 1`,
`k_off0_slip = 0`, `k_on = 1`, `k_on_fil = 1`, `a_per_kBT = 0`, `Nh = 1`,
`Nmax = 1`, `h_eta = 1`, `xi_rho_a2 = 1`, `rho_max_per_rho = 2`, `R0 = 10`,
`k_p = 35`.  Its head off-rate is identically `1`. -/
noncomputable def mEx : FullModel :=
  ⟨0, 0, 1, 0, 1, 1, 0, 1, 1, 1, 1, 2, 10, 35⟩

/-- A concrete `FullModel` with all rate parameters strictly positive:
as `mEx` but with `k_off0_slip = 1`. -/
noncomputable def mPos : FullModel :=
  ⟨0, 0, 1, 1, 1, 1, 0, 1, 1, 1, 1, 2, 10, 35⟩

/-- A concrete `FullModel` with `k_off0_catch = k_off0_slip = 0`, so that the
head off-rate is identically `0` and every off-rate denominator in
`k_off_fil` is `0`. -/
noncomputable def mZero : FullModel :=
  ⟨0, 0, 0, 0, 1, 1, 0, 1, 1, 1, 1, 2, 10, 35⟩

/-- A concrete `DensityModel`: `h_eta = 1`, `xi_N_rho_a2 = 1`,
`rho_max_per_rho = 2`, `R0 = 10`, `k_p = 35`. -/
noncomputable def mdEx : DensityModel :=
  ⟨1, 1, 2, 10, 35⟩

/-! ## Helper lemmas -/

/-- C7: for both model variants, `velocity` returns the first component of
`rhs` at the same state, divided by the pillar stiffness `k_p`. -/
theorem velocity_eq_first_rhs_component_div_kp
    (mf : FullModel) (md : DensityModel) (t f1 N f2 : ℝ)
    (h1 : f1 ≠ mf.k_p * mf.R0) (h2 : f2 ≠ md.k_p * md.R0) :
    mf.velocity t f1 N = (mf.rhs t [f1, N]).getD 0 0 / mf.k_p ∧
    md.velocity t f2 = (md.rhs t [f2]).getD 0 0 / md.k_p :=
  ⟨rfl, rfl⟩

/-- Witness for C7 at a concrete state of the concrete models. -/
theorem velocity_eq_first_rhs_component_div_kp_witness :
    ((1 : ℝ) ≠ mEx.k_p * mEx.R0 ∧ (1 : ℝ) ≠ mdEx.k_p * mdEx.R0) ∧
    (mEx.velocity 0 1 1 = (mEx.rhs 0 [1, 1]).getD 0 0 / mEx.k_p ∧
     mdEx.velocity 0 1 = (mdEx.rhs 0 [1]).getD 0 0 / mdEx.k_p) :=
  ⟨⟨by norm_num [mEx], by norm_num [mdEx]⟩,
   velocity_eq_first_rhs_component_div_kp mEx mdEx 0 1 1 1
     (by norm_num [mEx]) (by norm_num [mdEx])⟩

/-! ## C8 -/

/-- C9: `get_parameter` returns the stored construction value for every known
parameter name of its variant (including `k_p`), and fails (`none`, Python
`KeyError`) on an unknown name; being a pure lookup, it leaves the parameter
set untouched. -/
theorem get_parameter_lookup
    (mf : FullModel) (md : DensityModel) (name : String) :
    (mf.get_parameter "x_catch" = some mf.x_catch ∧
     mf.get_parameter "x_slip" = some mf.x_slip ∧
     mf.get_parameter "k_off0_catch" = some mf.k_off0_catch ∧
     mf.get_parameter "k_off0_slip" = some mf.k_off0_slip ∧
     mf.get_parameter "k_on" = some mf.k_on ∧
     mf.get_parameter "k_on_fil" = some mf.k_on_fil ∧
     mf.get_parameter "a_per_kBT" = some mf.a_per_kBT ∧
     mf.get_parameter "Nh" = some (mf.Nh : ℝ) ∧
     mf.get_parameter "Nmax" = some (mf.Nmax : ℝ) ∧
     mf.get_parameter "h_eta" = some mf.h_eta ∧
     mf.get_parameter "xi_rho_a2" = some mf.xi_rho_a2 ∧
     mf.get_parameter "rho_max_per_rho" = some mf.rho_max_per_rho ∧
     mf.get_parameter "R0" = some mf.R0 ∧
     mf.get_parameter "k_p" = some mf.k_p) ∧
    (name ∉ ["x_catch", "x_slip", "k_off0_catch", "k_off0_slip", "k_on",
        "k_on_fil", "a_per_kBT", "Nh", "Nmax", "h_eta", "xi_rho_a2",
        "rho_max_per_rho", "R0", "k_p"] →
      mf.get_parameter name = none) ∧
    (md.get_parameter "h_eta" = some md.h_eta ∧
     md.get_parameter "xi_N_rho_a2" = some md.xi_N_rho_a2 ∧
     md.get_parameter "rho_max_per_rho" = some md.rho_max_per_rho ∧
     md.get_parameter "R0" = some md.R0 ∧
     md.get_parameter "k_p" = some md.k_p) ∧
    (name ∉ ["h_eta", "xi_N_rho_a2", "rho_max_per_rho", "R0", "k_p"] →
      md.get_parameter name = none) := by
  refine ⟨?_, fun h => ?_, ?_, fun h => ?_⟩
  · exact ⟨rfl, rfl, rfl, rfl, rfl, rfl, rfl, rfl, rfl, rfl, rfl, rfl, rfl, rfl⟩
  · simp only [List.mem_cons, List.not_mem_nil, or_false, not_or] at h
    obtain ⟨h1, h2, h3, h4, h5, h6, h7, h8, h9, h10, h11, h12, h13, h14⟩ := h
    simp [FullModel.get_parameter, FullModel.parameter_dict,
      h1, h2, h3, h4, h5, h6, h7, h8, h9, h10, h11, h12, h13, h14]
  · exact ⟨rfl, rfl, rfl, rfl, rfl⟩
  · simp only [List.mem_cons, List.not_mem_nil, or_false, not_or] at h
    obtain ⟨h1, h2, h3, h4, h5⟩ := h
    simp [DensityModel.get_parameter, DensityModel.parameter_dict,
      h1, h2, h3, h4, h5]

/-- Witness for C9 at the unknown name "bogus" on the concrete models. -/
theorem get_parameter_lookup_witness :
    ("bogus" ∉ ["x_catch", "x_slip", "k_off0_catch", "k_off0_slip", "k_on",
        "k_on_fil", "a_per_kBT", "Nh", "Nmax", "h_eta", "xi_rho_a2",
        "rho_max_per_rho", "R0", "k_p"] ∧
     "bogus" ∉ ["h_eta", "xi_N_rho_a2", "rho_max_per_rho", "R0", "k_p"]) ∧
    (mEx.get_parameter "k_p" = some mEx.k_p ∧
     mEx.get_parameter "bogus" = none ∧
     mdEx.get_parameter "k_p" = some mdEx.k_p ∧
     mdEx.get_parameter "bogus" = none) :=
  ⟨⟨by decide, by decide⟩,
   ⟨(get_parameter_lookup mEx mdEx "bogus").1.2.2.2.2.2.2.2.2.2.2.2.2.2,
    (get_parameter_lookup mEx mdEx "bogus").2.1 (by decide),
    (get_parameter_lookup mEx mdEx "bogus").2.2.1.2.2.2.2,
    (get_parameter_lookup mEx mdEx "bogus").2.2.2 (by decide)⟩⟩

/-! ## C3 -/

/-- C3 counterexample: at `h_eta = 1` and velocity list `[1]`, the dissipated
power computed by the source is `[24 * pi]`, not the `[(24/5) * pi]` that the
claim's formula gives. -/
theorem dissipated_power_prefactor_cex :
    dissipated_power [1] mEx.h_eta ≠ [24 / 5 * Real.pi * mEx.h_eta * 1 ^ 2] := by
  have hpi := Real.pi_pos
  simp only [dissipated_power, mEx, List.map_cons, List.map_nil, one_pow,
    mul_one, ne_eq, List.cons.injEq, and_true]
  intro h
  nlinarith [h]

/-- C3 (amended): `dissipated_power` is elementwise
`24 * pi * h_eta * v ^ 2` (the prefactor is `5 * 4 * (6/5) * pi = 24 * pi`,
not `(24/5) * pi`), where `h_eta` is the value the source looks up via
`model.get_parameter('h_eta')`. -/
theorem dissipated_power_formula (m : FullModel) (velocities : List ℝ) :
    m.get_parameter "h_eta" = some m.h_eta ∧
    dissipated_power velocities m.h_eta =
      velocities.map (fun v => 24 * Real.pi * m.h_eta * v ^ 2) := by
  refine ⟨rfl, ?_⟩
  simp only [dissipated_power]
  congr 1
  funext v
  ring

/-! ## C1 -/

/-- C1: evaluation of the cumulative-work reductions at the failing input
`t = [1, 2]` with constant unit powers.  `work_elastic` (with `k_p = 1/10`,
`displacements = velocities = [1, 1]`, so that the transmitted powers are
`[1, 1]`) returns `1*1 + 2*1 = 3` because `time_prev` is never advanced,
while the left-Riemann sum of the claim returns `1*1 + (2-1)*1 = 2`;
`work_diss` (with `h_eta = 1`, powers `[24*pi, 24*pi]`) likewise returns
`72*pi` where the claim's quadrature returns `48*pi`. -/
theorem work_reductions_at_failing_input :
    work_elastic [1, 2] [1, 1] [1, 1] (1 / 10) = 3 ∧
    cumulativeWork_spec [1, 2] (transmitted_power [1, 1] [1, 1] (1 / 10)) = 2 ∧
    work_diss [1, 2] [1, 1] 1 = 72 * Real.pi ∧
    cumulativeWork_spec [1, 2] (dissipated_power [1, 1] 1) = 48 * Real.pi ∧
    (3 : ℝ) ≠ 2 ∧ 72 * Real.pi ≠ 48 * Real.pi := by
  have hpi := Real.pi_pos
  refine ⟨?_, ?_, ?_, ?_, by norm_num, fun h => by nlinarith [h]⟩
  · norm_num [work_elastic, transmitted_power]
  · norm_num [cumulativeWork_spec, transmitted_power]
  · simp only [work_diss, dissipated_power, List.map_cons, List.map_nil,
      List.zip_cons_cons, List.zip_nil_right, List.foldl_cons, List.foldl_nil]
    ring
  · simp only [cumulativeWork_spec, dissipated_power, List.map_cons,
      List.map_nil, List.zip_cons_cons, List.zip_nil_right, List.foldl_cons,
      List.foldl_nil]
    ring

/-! ## Kinetics helper lemmas -/

lemma calc_prob_dist_getD (m : FullModel) (F : ℝ) {n : ℕ} (hn : n ≤ m.Nh) :
    (m.calc_prob_dist F).getD n 0 = m.prob F n := by
  have hlt : n < m.Nh + 1 := Nat.lt_succ_of_le hn
  simp [FullModel.calc_prob_dist, List.getD_eq_getElem?_getD,
    List.getElem?_map, List.getElem?_range, hlt]

/-- `T_off_av` with the list indexing `pns[j]` resolved to the probability
function (every index used is in range). -/
lemma T_off_av_eq (m : FullModel) (F : ℝ) :
    m.T_off_av F =
      ∑ NB_init ∈ Finset.Icc 1 m.Nh, m.prob F NB_init *
        ∑ NB ∈ Finset.Icc 1 NB_init,
          1 / ((NB : ℝ) * m.k_off (F / (NB : ℝ)) * m.prob F NB) *
            ∑ j ∈ Finset.Icc NB m.Nh, m.prob F j := by
  simp only [FullModel.T_off_av]
  refine Finset.sum_congr rfl fun NBi hNBi => ?_
  rw [Finset.mem_Icc] at hNBi
  rw [calc_prob_dist_getD m F hNBi.2]
  congr 1
  refine Finset.sum_congr rfl fun NB hNB => ?_
  rw [Finset.mem_Icc] at hNB
  have hNBle : NB ≤ m.Nh := le_trans hNB.2 hNBi.2
  rw [calc_prob_dist_getD m F hNBle]
  congr 1
  refine Finset.sum_congr rfl fun j hj => ?_
  rw [Finset.mem_Icc] at hj
  rw [calc_prob_dist_getD m F hj.2]

lemma FullModel.k_off_pos (m : FullModel) (hc : 0 ≤ m.k_off0_catch)
    (hs : 0 ≤ m.k_off0_slip) (hcs : 0 < m.k_off0_catch + m.k_off0_slip)
    (f : ℝ) : 0 < m.k_off f := by
  unfold FullModel.k_off
  rcases hc.lt_or_eq with h | h
  · have h1 : 0 < m.k_off0_catch * Real.exp (-m.a_per_kBT * f * m.x_catch) :=
      mul_pos h (Real.exp_pos _)
    have h2 : 0 ≤ m.k_off0_slip * Real.exp (m.a_per_kBT * f * m.x_slip) :=
      mul_nonneg hs (Real.exp_pos _).le
    linarith
  · have hs' : 0 < m.k_off0_slip := by rw [← h] at hcs; simpa using hcs
    rw [← h, zero_mul, zero_add]
    exact mul_pos hs' (Real.exp_pos _)

lemma FullModel.nom_pos (m : FullModel) (hk : 0 < m.k_on)
    (hoff : ∀ f, 0 < m.k_off f) (F : ℝ) {n : ℕ} (hn : n ≤ m.Nh) :
    0 < m.nom F n := by
  unfold FullModel.nom
  refine Finset.prod_pos fun i hi => ?_
  rw [Finset.mem_range] at hi
  have hiNh : i < m.Nh := lt_of_lt_of_le hi hn
  refine div_pos (mul_pos ?_ hk) (mul_pos ?_ (hoff _))
  · have hcast : (i : ℝ) < (m.Nh : ℝ) := by exact_mod_cast hiNh
    linarith
  · positivity

lemma FullModel.denom_pos (m : FullModel) (hk : 0 < m.k_on)
    (hoff : ∀ f, 0 < m.k_off f) (F : ℝ) : 0 < m.denom F := by
  unfold FullModel.denom
  have hsum : 0 ≤ ∑ k ∈ Finset.Icc 1 m.Nh, m.nom F k :=
    Finset.sum_nonneg fun k hkmem => by
      rw [Finset.mem_Icc] at hkmem
      exact (m.nom_pos hk hoff F hkmem.2).le
  linarith

lemma FullModel.prob_pos (m : FullModel) (hk : 0 < m.k_on)
    (hoff : ∀ f, 0 < m.k_off f) (F : ℝ) {n : ℕ} (hn : n ≤ m.Nh) :
    0 < m.prob F n :=
  div_pos (m.nom_pos hk hoff F hn) (m.denom_pos hk hoff F)

lemma sum_map_list_range (f : ℕ → ℝ) (n : ℕ) :
    ((List.range n).map f).sum = ∑ i ∈ Finset.range n, f i := by
  induction n with
  | zero => simp
  | succ k ih =>
      rw [List.range_succ, List.map_append, List.sum_append,
        Finset.sum_range_succ, ih]
      simp

lemma sum_range_succ_eq_add_Icc (f : ℕ → ℝ) (n : ℕ) :
    ∑ i ∈ Finset.range (n + 1), f i = f 0 + ∑ k ∈ Finset.Icc 1 n, f k := by
  induction n with
  | zero => simp
  | succ k ih =>
      rw [Finset.sum_range_succ, ih,
        Finset.sum_Icc_succ_top (Nat.le_add_left 1 k)]
      ring

/-! ## C4 -/

/-- C4: for every total force and every model with positive rate parameters,
the bound-head probability list built by `__calc_prob_dist` has `Nh + 1`
entries and sums to 1. -/
theorem calc_prob_dist_length_and_sum_one (m : FullModel) (F : ℝ)
    (hk : 0 < m.k_on) (hc : 0 < m.k_off0_catch) (hs : 0 < m.k_off0_slip) :
    (m.calc_prob_dist F).length = m.Nh + 1 ∧ (m.calc_prob_dist F).sum = 1 := by
  have hoff : ∀ f, 0 < m.k_off f := m.k_off_pos hc.le hs.le (by linarith)
  constructor
  · simp [FullModel.calc_prob_dist]
  · have hd := m.denom_pos hk hoff F
    rw [FullModel.calc_prob_dist, sum_map_list_range]
    have hdiv : ∑ i ∈ Finset.range (m.Nh + 1), m.prob F i
        = (∑ i ∈ Finset.range (m.Nh + 1), m.nom F i) / m.denom F := by
      simp [FullModel.prob, Finset.sum_div]
    rw [hdiv, sum_range_succ_eq_add_Icc]
    have h0 : m.nom F 0 = 1 := by simp [FullModel.nom]
    have hde : m.denom F = 1 + ∑ k ∈ Finset.Icc 1 m.Nh, m.nom F k := rfl
    rw [h0, ← hde]
    exact div_self hd.ne'

/-- Witness for C4 at the concrete all-positive model and zero force. -/
theorem calc_prob_dist_length_and_sum_one_witness :
    ((0 : ℝ) < mPos.k_on ∧ (0 : ℝ) < mPos.k_off0_catch ∧
      (0 : ℝ) < mPos.k_off0_slip) ∧
    ((mPos.calc_prob_dist 0).length = mPos.Nh + 1 ∧
      (mPos.calc_prob_dist 0).sum = 1) :=
  ⟨⟨by norm_num [mPos], by norm_num [mPos], by norm_num [mPos]⟩,
   calc_prob_dist_length_and_sum_one mPos 0 (by norm_num [mPos])
     (by norm_num [mPos]) (by norm_num [mPos])⟩

/-! ## C5 -/

/-- C5: the filament off-rate is strictly positive for every force `F ≥ 0`
and every physically valid parameter set (`k_on > 0`, `Nh ≥ 1`, both base
off-rates non-negative and not both zero). -/
theorem k_off_fil_pos (m : FullModel) (F : ℝ) (hF : 0 ≤ F)
    (hk : 0 < m.k_on) (hNh : 1 ≤ m.Nh) (hc : 0 ≤ m.k_off0_catch)
    (hs : 0 ≤ m.k_off0_slip) (hcs : 0 < m.k_off0_catch + m.k_off0_slip) :
    0 < m.k_off_fil F := by
  have hoff : ∀ f, 0 < m.k_off f := m.k_off_pos hc hs hcs
  rw [FullModel.k_off_fil, T_off_av_eq, one_div]
  refine inv_pos.mpr ?_
  refine Finset.sum_pos (fun NBi hNBi => ?_) (Finset.nonempty_Icc.mpr hNh)
  rw [Finset.mem_Icc] at hNBi
  refine mul_pos (m.prob_pos hk hoff F hNBi.2) ?_
  refine Finset.sum_pos (fun NB hNB => ?_) (Finset.nonempty_Icc.mpr hNBi.1)
  rw [Finset.mem_Icc] at hNB
  have hNBle : NB ≤ m.Nh := le_trans hNB.2 hNBi.2
  have hNBpos : (0 : ℝ) < (NB : ℝ) := by
    have : 0 < NB := hNB.1
    exact_mod_cast this
  refine mul_pos ?_ ?_
  · rw [one_div]
    exact inv_pos.mpr
      (mul_pos (mul_pos hNBpos (hoff _)) (m.prob_pos hk hoff F hNBle))
  · refine Finset.sum_pos (fun j hj => ?_) (Finset.nonempty_Icc.mpr hNBle)
    rw [Finset.mem_Icc] at hj
    exact m.prob_pos hk hoff F hj.2

/-- Witness for C5 at the concrete model and zero force. -/
theorem k_off_fil_pos_witness :
    ((0 : ℝ) ≤ 0 ∧ (0 : ℝ) < mEx.k_on ∧ 1 ≤ mEx.Nh ∧
      (0 : ℝ) ≤ mEx.k_off0_catch ∧ (0 : ℝ) ≤ mEx.k_off0_slip ∧
      (0 : ℝ) < mEx.k_off0_catch + mEx.k_off0_slip) ∧
    0 < mEx.k_off_fil 0 :=
  ⟨⟨le_refl 0, by norm_num [mEx], by norm_num [mEx], by norm_num [mEx],
    by norm_num [mEx], by norm_num [mEx]⟩,
   k_off_fil_pos mEx 0 (le_refl 0) (by norm_num [mEx]) (by norm_num [mEx])
     (by norm_num [mEx]) (by norm_num [mEx]) (by norm_num [mEx])⟩

/-! ## C2 -/

/-- C2 counterexample: on a concrete single-head model (`Nh = 1`,
`k_on = 1`, constant head off-rate `1`), the filament off-rate at zero force
is `2`, not the head off-rate `1`: the first-passage average of `k_off_fil`
is weighted by the unconditioned probabilities `pns`, so it does not reduce
to the single-head rate. -/
theorem k_off_fil_single_head_cex : mEx.k_off_fil 0 ≠ mEx.k_off 0 := by
  have hko : ∀ f, mEx.k_off f = 1 := fun f => by
    simp [FullModel.k_off, mEx]
  have hNh : mEx.Nh = 1 := rfl
  have hkon : mEx.k_on = 1 := rfl
  have hnom : mEx.nom 0 1 = 1 := by
    simp only [FullModel.nom, Finset.prod_range_one, Nat.cast_zero, hNh,
      Nat.cast_one, hkon, hko]
    norm_num
  have hd : mEx.denom 0 = 2 := by
    rw [FullModel.denom, hNh, Finset.Icc_self, Finset.sum_singleton, hnom]
    norm_num
  have hp : mEx.prob 0 1 = 1 / 2 := by
    rw [FullModel.prob, hnom, hd]
  have hT : mEx.T_off_av 0 = 1 / 2 := by
    rw [T_off_av_eq]
    simp only [hNh, Finset.Icc_self, Finset.sum_singleton, Nat.cast_one,
      div_one, one_mul, hko, hp]
    norm_num
  simp only [FullModel.k_off_fil, hT, hko]
  norm_num

/-- C2 (amended): for a single-head model (`Nh = 1`) with `k_on > 0` and a
valid (positive) head off-rate, the filament off-rate is
`k_off(F) * (k_off(F) + k_on) / k_on`, i.e. the single-head off-rate divided
by the steady-state probability that the head is bound — it exceeds
`headOffRate(F)` rather than equalling it. -/
theorem k_off_fil_single_head_formula (m : FullModel) (F : ℝ)
    (hNh : m.Nh = 1) (hk : 0 < m.k_on) (hc : 0 ≤ m.k_off0_catch)
    (hs : 0 ≤ m.k_off0_slip) (hcs : 0 < m.k_off0_catch + m.k_off0_slip) :
    m.k_off_fil F = m.k_off F * (m.k_off F + m.k_on) / m.k_on := by
  have hoff : ∀ f, 0 < m.k_off f := m.k_off_pos hc hs hcs
  have hko := (hoff F).ne'
  have hkon := hk.ne'
  have hsum : (0 : ℝ) < m.k_off F + m.k_on := by
    have := hoff F
    linarith
  have hdne : m.k_off F + m.k_on ≠ 0 := hsum.ne'
  have hnom : m.nom F 1 = m.k_on / m.k_off F := by
    simp only [FullModel.nom, Finset.prod_range_one, Nat.cast_zero, hNh,
      Nat.cast_one]
    norm_num
  have hd : m.denom F = 1 + m.k_on / m.k_off F := by
    rw [FullModel.denom, hNh, Finset.Icc_self, Finset.sum_singleton, hnom]
  have hp : m.prob F 1 = m.k_on / (m.k_off F + m.k_on) := by
    rw [FullModel.prob, hnom, hd]
    field_simp
  rw [FullModel.k_off_fil, T_off_av_eq]
  simp only [hNh, Finset.Icc_self, Finset.sum_singleton, Nat.cast_one,
    div_one, one_mul, hp]
  field_simp
  ring

/-- Witness for C2's amended formula on the concrete single-head model. -/
theorem k_off_fil_single_head_formula_witness :
    (mEx.Nh = 1 ∧ (0 : ℝ) < mEx.k_on ∧ (0 : ℝ) ≤ mEx.k_off0_catch ∧
      (0 : ℝ) ≤ mEx.k_off0_slip ∧
      (0 : ℝ) < mEx.k_off0_catch + mEx.k_off0_slip) ∧
    mEx.k_off_fil 0 = mEx.k_off 0 * (mEx.k_off 0 + mEx.k_on) / mEx.k_on :=
  ⟨⟨rfl, by norm_num [mEx], by norm_num [mEx], by norm_num [mEx],
    by norm_num [mEx]⟩,
   k_off_fil_single_head_formula mEx 0 rfl (by norm_num [mEx])
     (by norm_num [mEx]) (by norm_num [mEx]) (by norm_num [mEx])⟩

/-! ## C6 -/

/-- C6 counterexample: on a concrete model whose base off-rates are both
zero, every head off-rate denominator of `k_off_fil` is exactly zero, yet the
computation goes through unguarded: in the total real-number semantics of the
embedding it returns the junk value `0` of division by zero (a value that is
not a positive rate), with no clamping and no warning path in the code. -/
theorem k_off_fil_zero_offrate_cex :
    mZero.k_off 1 = 0 ∧ mZero.k_off_fil 1 = 0 := by
  have hko : ∀ f, mZero.k_off f = 0 := fun f => by
    simp [FullModel.k_off, mZero]
  refine ⟨hko 1, ?_⟩
  rw [FullModel.k_off_fil, T_off_av_eq]
  simp [hko]

/-- C6 (amended): `k_off_fil` contains no guard on its off-rate
denominators: whenever both base off-rates are zero the head off-rate is
identically zero, every division `1 / (NB * k_off * pns[NB])` is a division
by zero, and the computation silently returns the degenerate value `0`
(in the floating-point implementation, a NaN after a runtime warning)
instead of clamping or failing. -/
theorem k_off_fil_zero_offrate_unguarded (m : FullModel) (F : ℝ)
    (hc : m.k_off0_catch = 0) (hs : m.k_off0_slip = 0) :
    (∀ f, m.k_off f = 0) ∧ m.k_off_fil F = 0 := by
  have hko : ∀ f, m.k_off f = 0 := fun f => by
    simp [FullModel.k_off, hc, hs]
  refine ⟨hko, ?_⟩
  rw [FullModel.k_off_fil, T_off_av_eq]
  simp [hko]

/-- Witness for C6's amended statement on the concrete degenerate model. -/
theorem k_off_fil_zero_offrate_unguarded_witness :
    (mZero.k_off0_catch = 0 ∧ mZero.k_off0_slip = 0) ∧
    ((∀ f, mZero.k_off f = 0) ∧ mZero.k_off_fil 2 = 0) :=
  ⟨⟨rfl, rfl⟩,
   k_off_fil_zero_offrate_unguarded mZero 2 rfl rfl⟩

/-! ## Loader helper lemmas -/

lemma indexOfName_get (nm : String) (names : List String) :
    ∀ i, indexOfName nm names = some i → names[i]? = some nm := by
  induction names with
  | nil => intro i h; simp [indexOfName] at h
  | cons x xs ih =>
      intro i h
      rw [indexOfName] at h
      split_ifs at h with hx
      · injection h with h0
        subst h0
        simp [hx]
      · obtain ⟨j, hj, hji⟩ := Option.map_eq_some'.mp h
        subst hji
        simpa using ih j hj

lemma applyLine_length_fst (names : List String) (st : List ℝ × List ℕ)
    (ln : Line) : (applyLine names st ln).1.length = st.1.length := by
  unfold applyLine
  rcases hidx : indexOfName ln.name names with _ | idx <;>
    simp [hidx, List.length_set]

lemma applyLine_length_snd (names : List String) (st : List ℝ × List ℕ)
    (ln : Line) : (applyLine names st ln).2.length = st.2.length := by
  unfold applyLine
  rcases hidx : indexOfName ln.name names with _ | idx <;>
    simp [hidx, List.length_set]

lemma foldl_applyLine_length_fst (names : List String) (file : List Line) :
    ∀ st : List ℝ × List ℕ,
      (file.foldl (applyLine names) st).1.length = st.1.length := by
  induction file with
  | nil => intro st; rfl
  | cons ln rest ih =>
      intro st
      rw [List.foldl_cons, ih, applyLine_length_fst]

/-- If the key at schema position `i` never occurs in the file, the found
flag at position `i` is untouched by the whole fold. -/
lemma foldl_applyLine_flag_not_found (names : List String) (nm : String)
    {i : ℕ} (hname : names[i]? = some nm) :
    ∀ file : List Line, (∀ ln ∈ file, ln.name ≠ nm) →
      ∀ st : List ℝ × List ℕ,
        (file.foldl (applyLine names) st).2[i]? = st.2[i]? := by
  intro file
  induction file with
  | nil => intro _ st; rfl
  | cons ln rest ih =>
      intro habsent st
      have hln : ln.name ≠ nm := habsent ln (List.mem_cons_self ln rest)
      have hrest : ∀ l ∈ rest, l.name ≠ nm := fun l hl =>
        habsent l (List.mem_cons_of_mem ln hl)
      rw [List.foldl_cons, ih hrest]
      unfold applyLine
      rcases hidx : indexOfName ln.name names with _ | idx
      · rfl
      · have hidxget := indexOfName_get ln.name names idx hidx
        have hne : idx ≠ i := by
          intro hh
          subst hh
          rw [hidxget] at hname
          exact hln (Option.some.inj hname)
        simp [List.getElem?_set_ne hne]

/-- Core of C10: a key of the schema that occurs on no line of the file
leaves its found flag at `0`, so the loader aborts. -/
lemma loadWith_none_of_missing (names : List String) (file : List Line)
    (nm : String) (hnm : nm ∈ names)
    (habsent : ∀ ln ∈ file, ln.name ≠ nm) :
    loadWith names file = none := by
  obtain ⟨i, hi⟩ := List.mem_iff_getElem?.mp hnm
  have hilt : i < names.length := (List.getElem?_eq_some.mp hi).1
  simp only [loadWith]
  have hflag : (file.foldl (applyLine names)
      (List.replicate names.length (0 : ℝ),
       List.replicate names.length (0 : ℕ))).2[i]? = some 0 := by
    rw [foldl_applyLine_flag_not_found names nm hi file habsent]
    simp [List.getElem?_replicate, hilt]
  have hmem : (0 : ℕ) ∈ (file.foldl (applyLine names)
      (List.replicate names.length (0 : ℝ),
       List.replicate names.length (0 : ℕ))).2 :=
    List.mem_iff_getElem?.mpr ⟨i, hflag⟩
  rw [if_pos hmem]

/-! ## C10 -/

/-- C10: loading the 'full model' schema fails (fatally, `none`) whenever
some required key has no line in the parameter file, and any successful
result is a fully populated value list: it has one value per schema key and
every required key occurs in the file. -/
theorem load_parameters_requires_all_keys (file : List Line) :
    (∀ nm ∈ full_model_parameter_names, (∀ ln ∈ file, ln.name ≠ nm) →
      load_parameters "full model" file = none) ∧
    (∀ ps, load_parameters "full model" file = some ps →
      ps.length = full_model_parameter_names.length ∧
      ∀ nm ∈ full_model_parameter_names, ∃ ln ∈ file, ln.name = nm) := by
  have hdispatch : load_parameters "full model" file
      = loadWith full_model_parameter_names file := by
    rw [load_parameters, if_pos rfl]
  constructor
  · intro nm hnm habsent
    rw [hdispatch]
    exact loadWith_none_of_missing full_model_parameter_names file nm hnm
      habsent
  · intro ps hps
    rw [hdispatch] at hps
    constructor
    · simp only [loadWith] at hps
      split_ifs at hps with h0
      obtain rfl := Option.some.inj hps
      rw [foldl_applyLine_length_fst, List.length_replicate]
    · intro nm hnm
      by_contra hcon
      push_neg at hcon
      rw [loadWith_none_of_missing full_model_parameter_names file nm hnm
        hcon] at hps
      exact absurd hps (by simp)

/-- Witness for C10: the empty parameter file misses the required key
`x_catch`, so loading the 'full model' schema fails. -/
theorem load_parameters_requires_all_keys_witness :
    ("x_catch" ∈ full_model_parameter_names ∧
      (∀ ln ∈ ([] : List Line), ln.name ≠ "x_catch")) ∧
    load_parameters "full model" [] = none :=
  ⟨⟨by decide, fun ln hln => absurd hln (List.not_mem_nil ln)⟩,
   (load_parameters_requires_all_keys []).1 "x_catch" (by decide)
     (fun ln hln => absurd hln (List.not_mem_nil ln))⟩
